import Mathlib

/-!
Verification model of `src/database/init_db.py` from the smart-to-do-list
repository: a one-shot SQLite initializer that creates the `categories` and
`tasks` tables plus indexes, inserts seed rows, commits, reads back counts and
writes two connection-descriptor files.

The embedding is shallow:
* table contents are lists of row structures; SQLite `NOCASE` comparison is
  modelled by ASCII case folding (`asciiLower`, `nocaseEq`), matching the
  `COLLATE NOCASE` declaration on `categories.name`;
* the statement functions (`_create_schema`, `_seed_data`, `insertTask`, ...)
  are translated line by line from the Python source; failing SQL statements
  (missing table, violated CHECK or FOREIGN KEY constraint) return `none`;
* `DEFAULT (strftime(...)*1000)` timestamps are represented by a `now`
  parameter holding the epoch-millisecond value used for the run;
* the transaction behaviour of the Python `sqlite3` module in its default
  (legacy, `isolation_level` not `None`) mode is modelled by the session
  machine below: an implicit `BEGIN` is issued before a DML statement when no
  transaction is open, while DDL and `SELECT` statements run in autocommit
  mode when no transaction is open; `commit` publishes the pending state and
  closing an uncommitted connection rolls the pending state back;
* `main` is modelled both as the session machine (`mainRun`, with an optional
  injected fault `failAt` naming the first statement index that raises) and as
  an event trace (`mainEvents`) capturing the `try/finally` structure around
  the connection handle.
-/

/-- ASCII lower casing of one character, as used by the SQLite `NOCASE`
collation (only the letters A-Z are folded). -/
def asciiLower (c : Char) : Char :=
  if 'A' ≤ c ∧ c ≤ 'Z' then Char.ofNat (c.toNat + 32) else c

/-- Case-insensitive string equality in the sense of SQLite `NOCASE`. -/
def nocaseEq (a b : String) : Bool :=
  (a.toList.map asciiLower) == (b.toList.map asciiLower)

/-- One row of the `categories` table (schema in `_create_schema`). -/
structure CategoryRow where
  id : Nat
  name : String
  color : Option String
  sort_order : Int
  created_at : Int
  updated_at : Int
deriving DecidableEq

/-- One row of the `tasks` table (schema in `_create_schema`). -/
structure TaskRow where
  id : Nat
  title : String
  description : Option String
  due_at : Option Int
  is_completed : Int
  completed_at : Option Int
  category_id : Option Nat
  priority : Int
  created_at : Int
  updated_at : Int
deriving DecidableEq

/-- State of the SQLite database file.  `hasCategoriesTable` / `hasTasksTable`
record whether the two tables exist, `indexes` the names of existing indexes,
`otherTables` the number of pre-existing user tables not owned by this script
(counted by the `sqlite_master` statistics query; the internal
`sqlite_sequence` table is excluded by its `NOT LIKE` filter and therefore not
modelled).  `catSeq` / `taskSeq` are the `AUTOINCREMENT` sequence values: the
largest row id ever used in each table. -/
structure DB where
  hasCategoriesTable : Bool
  hasTasksTable : Bool
  indexes : List String
  otherTables : Nat
  categories : List CategoryRow
  tasks : List TaskRow
  catSeq : Nat
  taskSeq : Nat
deriving DecidableEq

/-- A database file that does not exist yet: `sqlite3.connect` creates it
empty. -/
def emptyDB : DB :=
  { hasCategoriesTable := false, hasTasksTable := false, indexes := [],
    otherTables := 0, categories := [], tasks := [], catSeq := 0, taskSeq := 0 }

/-- `DB_NAME = "myapp.db"` from the source. -/
def DB_NAME : String := "myapp.db"

/-- Row id chosen by SQLite `AUTOINCREMENT`: one larger than both the largest
id ever used (the sequence value) and the largest id currently present. -/
def freshId (seq : Nat) (ids : List Nat) : Nat :=
  max seq (ids.foldr max 0) + 1

/-- `CREATE TABLE IF NOT EXISTS categories (...)`. -/
def createCategoriesTable (db : DB) : DB :=
  if db.hasCategoriesTable then db else { db with hasCategoriesTable := true }

/-- `CREATE TABLE IF NOT EXISTS tasks (...)`. -/
def createTasksTable (db : DB) : DB :=
  if db.hasTasksTable then db else { db with hasTasksTable := true }

/-- `CREATE INDEX IF NOT EXISTS <n> ON ...`. -/
def createIndex (n : String) (db : DB) : DB :=
  if n ∈ db.indexes then db else { db with indexes := db.indexes ++ [n] }

/-- The six index names created by `_create_schema`, in source order. -/
def indexNames : List String :=
  ["idx_tasks_category_id", "idx_tasks_due_at", "idx_tasks_is_completed",
   "idx_tasks_completed_at", "idx_tasks_created_at", "idx_categories_sort_order"]

/-- `_create_schema(cursor)`: create the two tables and the six indexes,
each with IF NOT EXISTS semantics. -/
def _create_schema (db : DB) : DB :=
  indexNames.foldl (fun d n => createIndex n d)
    (createTasksTable (createCategoriesTable db))

/-- Does the `categories` table contain a row whose name equals `n` under the
`NOCASE` collation of the `UNIQUE(name)` constraint? -/
def hasCatNamed (db : DB) (n : String) : Bool :=
  db.categories.any (fun r => nocaseEq r.name n)

/-- `INSERT OR IGNORE INTO categories (name, color, sort_order) VALUES (?,?,?)`.
Fails (`none`) when the `categories` table does not exist; is ignored when a
row with the same name (case-insensitively, per `COLLATE NOCASE`) exists;
otherwise appends a new row whose timestamps default to `now`. -/
def insertCategorySeed (now : Int) (name color : String) (sort : Int)
    (db : DB) : Option DB :=
  if db.hasCategoriesTable then
    if hasCatNamed db name then some db
    else
      let i := freshId db.catSeq (db.categories.map (fun r => r.id))
      some { db with
        categories := db.categories ++ [⟨i, name, some color, sort, now, now⟩],
        catSeq := i }
  else none

/-- Scalar subquery `(SELECT id FROM categories WHERE name = <n>)`: the id of
the first matching row, or NULL when there is none.  The comparison uses the
collation of the `name` column, hence `NOCASE`. -/
def lookupCategoryId (db : DB) (n : String) : Option Nat :=
  (db.categories.find? (fun r => nocaseEq r.name n)).map (fun r => r.id)

/-- `INSERT INTO tasks (...)` with the schema constraints of `_create_schema`:
`CHECK (is_completed IN (0,1))`, `CHECK (completed_at IS NULL OR
is_completed = 1)`, `CHECK (due_at IS NULL OR due_at >= 0)` and the enforced
(`PRAGMA foreign_keys = ON` in `_connect`) foreign key
`category_id REFERENCES categories(id)`.  Returns `none` when the table is
missing or a constraint rejects the row. -/
def insertTask (now : Int) (title : String) (descr : Option String)
    (due : Option Int) (isCompleted : Int) (completedAt : Option Int)
    (categoryId : Option Nat) (priority : Int) (db : DB) : Option DB :=
  if db.hasTasksTable then
    if (isCompleted == 0 || isCompleted == 1)
        && (completedAt == none || isCompleted == 1)
        && (due.all (fun d => decide (0 ≤ d)))
        && (categoryId.all (fun c => db.categories.any (fun r => r.id == c))) then
      let i := freshId db.taskSeq (db.tasks.map (fun r => r.id))
      some { db with
        tasks := db.tasks ++
          [⟨i, title, descr, due, isCompleted, completedAt, categoryId,
            priority, now, now⟩],
        taskSeq := i }
    else none
  else none

/-- One starter-task insert from `_seed_data`: due date NULL, not completed,
`completed_at` left to its NULL default, category resolved by the name
subselect. -/
def insertSeedTask (now : Int) (title descr catName : String) (priority : Int)
    (db : DB) : Option DB :=
  insertTask now title (some descr) none 0 none
    (lookupCategoryId db catName) priority db

/-- `_seed_data(cursor)`: the four category inserts (the source loops over its
four-element `categories` list; the loop is unrolled here), then
`SELECT COUNT(*) FROM tasks` (failing when the table is missing) and, only
when that count is zero, the three starter-task inserts. -/
def _seed_data (now : Int) (db0 : DB) : Option DB :=
  (insertCategorySeed now "Personal" "#10B981" 0 db0).bind fun db1 =>
  (insertCategorySeed now "Work" "#374151" 1 db1).bind fun db2 =>
  (insertCategorySeed now "Shopping" "#9CA3AF" 2 db2).bind fun db3 =>
  (insertCategorySeed now "Health" "#EF4444" 3 db3).bind fun db4 =>
  if db4.hasTasksTable then
    if db4.tasks.length == 0 then
      (insertSeedTask now "Welcome to Smart To-Do"
          "Tap a task to edit it. Use the + button to add more."
          "Personal" 0 db4).bind fun db5 =>
      (insertSeedTask now "Plan your week"
          "Add a few work tasks and set due dates." "Work" 1 db5).bind fun db6 =>
      insertSeedTask now "Buy groceries" "Milk, eggs, bread, fruit."
        "Shopping" 0 db6
    else some db4
  else none

/-- The database-state effect of one fault-free run of the initializer:
`_create_schema` followed by `_seed_data` (the commit publishes exactly this
state; the fault-free session below agrees with it). -/
def runInit (now : Int) (db : DB) : Option DB :=
  _seed_data now (_create_schema db)

/-- `SELECT COUNT(*) FROM sqlite_master WHERE type='table' AND name NOT LIKE
'sqlite_%'`. -/
def userTableCount (db : DB) : Nat :=
  db.otherTables + (if db.hasCategoriesTable then 1 else 0) +
    (if db.hasTasksTable then 1 else 0)

/-- The three statistics printed by `main`: user tables, categories, tasks. -/
def reportStats (db : DB) : Nat × Nat × Nat :=
  (userTableCount db, db.categories.length, db.tasks.length)

/-- `DELETE FROM categories WHERE id = cid` under the created schema: the
enforced foreign key has `ON DELETE SET NULL`, so referencing tasks keep
existing with a cleared `category_id`. -/
def deleteCategory (cid : Nat) (db : DB) : DB :=
  { db with
    categories := db.categories.filter (fun r => r.id ≠ cid),
    tasks := db.tasks.map (fun t =>
      if t.category_id = some cid then { t with category_id := none } else t) }

/-- `UPDATE categories SET id = newId WHERE id = oldId` under the created
schema: `ON UPDATE CASCADE` rewrites the `category_id` of referencing tasks.
The statement fails (`none`) when the new id collides with a different
existing category (primary-key violation). -/
def updateCategoryId (oldId newId : Nat) (db : DB) : Option DB :=
  if db.categories.all (fun r => r.id ≠ oldId) then some db
  else if db.categories.any (fun r => r.id = newId && newId ≠ oldId) then none
  else some { db with
    categories := db.categories.map (fun r =>
      if r.id = oldId then { r with id := newId } else r),
    tasks := db.tasks.map (fun t =>
      if t.category_id = some oldId then { t with category_id := some newId }
      else t) }

/-- `connection_string = f"sqlite:///{current_dir}/{DB_NAME}"` with
`current_dir = os.getcwd()`. -/
def connection_string (cwd : String) : String :=
  "sqlite:///" ++ cwd ++ "/" ++ DB_NAME

/-- Content of `db_connection.txt`: the four `f.write` calls of
`_write_connection_files`, each writing one newline-terminated line. -/
def dbConnectionTxt (cwd : String) : String :=
  "# SQLite connection methods:\n" ++
  ("# Python: sqlite3.connect(\x27" ++ DB_NAME ++ "\x27)\n") ++
  ("# Connection string: " ++ connection_string cwd ++ "\n") ++
  ("# File path: " ++ cwd ++ "/" ++ DB_NAME ++ "\n")

/-- Content of `db_visualizer/sqlite.env`: one line exporting the absolute
database path (`os.path.abspath` of the relative `db_path`, i.e. the working
directory joined with `myapp.db`). -/
def sqliteEnvTxt (cwd : String) : String :=
  "export SQLITE_DB=\x22" ++ (cwd ++ "/" ++ DB_NAME) ++ "\x22\n"

/-- `_write_connection_files(db_path)` as the map from written file path to
written content; `db_visualizer` is the subdirectory created with
`os.makedirs(..., exist_ok=True)` before its file is written.  Both files are
opened with mode `w`, i.e. rewritten unconditionally. -/
def _write_connection_files (cwd : String) : List (String × String) :=
  [("db_connection.txt", dbConnectionTxt cwd),
   ("db_visualizer/sqlite.env", sqliteEnvTxt cwd)]

/-- A Python `sqlite3` connection in legacy transaction mode: the committed
on-disk state plus the pending transaction state, when a transaction is
open. -/
structure ConnState where
  committed : DB
  txn : Option DB
deriving DecidableEq

/-- The database state a statement executing on the connection sees. -/
def curDB (c : ConnState) : DB :=
  c.txn.getD c.committed

/-- Execute a DDL statement: inside an open transaction it joins the
transaction; otherwise the module performs no implicit transaction handling
and the statement is autocommitted. -/
def execDDL (f : DB → DB) (c : ConnState) : ConnState :=
  match c.txn with
  | some d => { c with txn := some (f d) }
  | none => { c with committed := f c.committed }

/-- Execute a DML statement: an implicit `BEGIN` is issued first when no
transaction is open, so the write always lands in the pending state;
`none` means the statement raised. -/
def execDML (f : DB → Option DB) (c : ConnState) : Option ConnState :=
  match f (curDB c) with
  | some d => some { c with txn := some d }
  | none => none

/-- `conn.commit()`: publish the pending state. -/
def commitConn (c : ConnState) : ConnState :=
  { committed := curDB c, txn := none }

/-- One SQL statement of the run, classified by its transaction behaviour. -/
inductive Stmt where
  | ddl (f : DB → DB)
  | dml (f : DB → Option DB)
  | query
  | commitStmt

/-- Cursor/connection state of the session, with the index of the next
statement and whether an exception has been raised. -/
structure Exec where
  conn : ConnState
  step : Nat
  failed : Bool

/-- Execute one statement.  `failAt` injects an external fault (I/O error,
disk full, ...) at the given statement index; after any failure the exception
propagates, so no further statement runs. -/
def execStmt (failAt : Option Nat) (s : Stmt) (e : Exec) : Exec :=
  if e.failed then e
  else if failAt = some e.step then { e with step := e.step + 1, failed := true }
  else
    match s with
    | .ddl f => { e with conn := execDDL f e.conn, step := e.step + 1 }
    | .query => { e with step := e.step + 1 }
    | .commitStmt => { e with conn := commitConn e.conn, step := e.step + 1 }
    | .dml f =>
      match execDML f e.conn with
      | some c => { e with conn := c, step := e.step + 1 }
      | none => { e with step := e.step + 1, failed := true }

/-- Execute a statement list in order. -/
def execProg (failAt : Option Nat) (l : List Stmt) (e : Exec) : Exec :=
  l.foldl (fun e s => execStmt failAt s e) e

/-- The eight DDL statements of `_create_schema`, in source order. -/
def schemaStmts : List Stmt :=
  [.ddl createCategoriesTable, .ddl createTasksTable] ++
    indexNames.map (fun n => .ddl (createIndex n))

/-- The four category inserts of `_seed_data`, in source order. -/
def catSeedStmts (now : Int) : List Stmt :=
  [.dml (insertCategorySeed now "Personal" "#10B981" 0),
   .dml (insertCategorySeed now "Work" "#374151" 1),
   .dml (insertCategorySeed now "Shopping" "#9CA3AF" 2),
   .dml (insertCategorySeed now "Health" "#EF4444" 3)]

/-- The three starter-task inserts of `_seed_data`, in source order. -/
def taskSeedStmts (now : Int) : List Stmt :=
  [.dml (insertSeedTask now "Welcome to Smart To-Do"
      "Tap a task to edit it. Use the + button to add more." "Personal" 0),
   .dml (insertSeedTask now "Plan your week"
      "Add a few work tasks and set due dates." "Work" 1),
   .dml (insertSeedTask now "Buy groceries" "Milk, eggs, bread, fruit."
      "Shopping" 0)]

/-- Statements executed before the task-count branch: schema creation, the
category seeding and `SELECT COUNT(*) FROM tasks` (13 statements, indices
0 to 12). -/
def preStmts (now : Int) : List Stmt :=
  schemaStmts ++ catSeedStmts now ++ [.query]

/-- Statements executed after the branch: `conn.commit()` and the three
statistics queries of `main`. -/
def postStmts : List Stmt :=
  [.commitStmt, .query, .query, .query]

/-- The statement-level session of `main` between `_connect` and
`conn.close()`: the prefix runs, then the starter-task inserts run exactly
when the observed task count was zero, then commit and statistics. -/
def initSession (now : Int) (failAt : Option Nat) (db0 : DB) : Exec :=
  let e1 := execProg failAt (preStmts now) ⟨⟨db0, none⟩, 0, false⟩
  let mid := if (curDB e1.conn).tasks.length == 0 then taskSeedStmts now else []
  execProg failAt (mid ++ postStmts) e1

/-- Index of the `conn.commit()` statement in the session that runs with the
given fault plan: 13 statements precede it, plus the three task inserts when
the branch takes them. -/
def commitIndex (now : Int) (failAt : Option Nat) (db0 : DB) : Nat :=
  let e1 := execProg failAt (preStmts now) ⟨⟨db0, none⟩, 0, false⟩
  13 + (if (curDB e1.conn).tasks.length == 0 then 3 else 0)

/-- Outcome of one `main` invocation: the on-disk state after `conn.close()`
(an uncommitted transaction is rolled back), whether the run succeeded, the
statistics it reports and the descriptor files it writes.  On failure the
exception propagates after `conn.close()`, so nothing is reported or
written. -/
structure RunResult where
  db : DB
  ok : Bool
  stats : Option (Nat × Nat × Nat)
  files : Option (List (String × String))
deriving DecidableEq

/-- `main()` over the session model. -/
def mainRun (cwd : String) (now : Int) (failAt : Option Nat) (db0 : DB) :
    RunResult :=
  let e := initSession now failAt db0
  if e.failed then ⟨e.conn.committed, false, none, none⟩
  else ⟨e.conn.committed, true, some (reportStats e.conn.committed),
        some (_write_connection_files cwd)⟩

/-- Observable resource events of `main`: the `try/finally` in the source
closes the handle on success and failure alike, and
`_write_connection_files` runs after the `finally` block, only when no
exception was raised. -/
inductive Ev where
  | connect
  | close
  | writeFiles
deriving DecidableEq

/-- Event trace of one `main` invocation.  When `_connect` itself raises, no
handle exists; otherwise the `finally` block emits `close` on every path and
the descriptor write happens only on the fault-free path. -/
def mainEvents (now : Int) (connectFails : Bool) (failAt : Option Nat)
    (db0 : DB) : List Ev :=
  if connectFails then []
  else if (initSession now failAt db0).failed then [Ev.connect, Ev.close]
  else [Ev.connect, Ev.close, Ev.writeFiles]

/-- Is the database handle open after the given event trace? -/
def handleOpenAfter (l : List Ev) : Bool :=
  l.foldl (fun o e =>
    match e with
    | Ev.connect => true
    | Ev.close => false
    | Ev.writeFiles => o) false

/-- The database produced by a fresh run (empty target) whose default
timestamps evaluate to `now`. -/
def freshDB (now : Int) : DB :=
  { hasCategoriesTable := true, hasTasksTable := true, indexes := indexNames,
    otherTables := 0,
    categories :=
      [⟨1, "Personal", some "#10B981", 0, now, now⟩,
       ⟨2, "Work", some "#374151", 1, now, now⟩,
       ⟨3, "Shopping", some "#9CA3AF", 2, now, now⟩,
       ⟨4, "Health", some "#EF4444", 3, now, now⟩],
    tasks :=
      [⟨1, "Welcome to Smart To-Do",
        some "Tap a task to edit it. Use the + button to add more.",
        none, 0, none, some 1, 0, now, now⟩,
       ⟨2, "Plan your week", some "Add a few work tasks and set due dates.",
        none, 0, none, some 2, 1, now, now⟩,
       ⟨3, "Buy groceries", some "Milk, eggs, bread, fruit.",
        none, 0, none, some 3, 0, now, now⟩],
    catSeq := 4, taskSeq := 3 }

/-- The semantic effect of one statement, ignoring transaction boundaries. -/
def pureStmt : Stmt → DB → Option DB
  | .ddl f, d => some (f d)
  | .dml f, d => f d
  | .query, d => some d
  | .commitStmt, d => some d

/-- The semantic effect of a statement list, ignoring transaction
boundaries. -/
def pureList : List Stmt → DB → Option DB
  | [], d => some d
  | s :: l, d => (pureStmt s d).bind (pureList l)

theorem runInit_emptyDB (now : Int) : runInit now emptyDB = some (freshDB now) := rfl

theorem nocaseEq_refl (a : String) : nocaseEq a a = true := by
  simp [nocaseEq]

theorem createCategoriesTable_fields (db : DB) :
    (createCategoriesTable db).hasCategoriesTable = true ∧
    (createCategoriesTable db).hasTasksTable = db.hasTasksTable ∧
    (createCategoriesTable db).indexes = db.indexes ∧
    (createCategoriesTable db).otherTables = db.otherTables ∧
    (createCategoriesTable db).categories = db.categories ∧
    (createCategoriesTable db).tasks = db.tasks := by
  unfold createCategoriesTable
  split <;> simp_all

theorem createTasksTable_fields (db : DB) :
    (createTasksTable db).hasTasksTable = true ∧
    (createTasksTable db).hasCategoriesTable = db.hasCategoriesTable ∧
    (createTasksTable db).indexes = db.indexes ∧
    (createTasksTable db).otherTables = db.otherTables ∧
    (createTasksTable db).categories = db.categories ∧
    (createTasksTable db).tasks = db.tasks := by
  unfold createTasksTable
  split <;> simp_all

theorem createIndex_fields (n : String) (db : DB) :
    (createIndex n db).hasCategoriesTable = db.hasCategoriesTable ∧
    (createIndex n db).hasTasksTable = db.hasTasksTable ∧
    (createIndex n db).otherTables = db.otherTables ∧
    (createIndex n db).categories = db.categories ∧
    (createIndex n db).tasks = db.tasks := by
  unfold createIndex
  split <;> simp_all

theorem createCategoriesTable_id (db : DB) (h : db.hasCategoriesTable = true) :
    createCategoriesTable db = db := by
  simp [createCategoriesTable, h]

theorem createTasksTable_id (db : DB) (h : db.hasTasksTable = true) :
    createTasksTable db = db := by
  simp [createTasksTable, h]

theorem createIndex_id (n : String) (db : DB) (h : n ∈ db.indexes) :
    createIndex n db = db := by
  simp [createIndex, h]

theorem createIndex_mem_self (n : String) (db : DB) :
    n ∈ (createIndex n db).indexes := by
  unfold createIndex
  split
  · assumption
  · simp

theorem createIndex_mem_mono (n m : String) (db : DB) (h : m ∈ db.indexes) :
    m ∈ (createIndex n db).indexes := by
  unfold createIndex
  split
  · exact h
  · simp [h]

theorem foldl_createIndex_fields (l : List String) :
    ∀ db : DB,
      (l.foldl (fun d m => createIndex m d) db).hasCategoriesTable = db.hasCategoriesTable ∧
      (l.foldl (fun d m => createIndex m d) db).hasTasksTable = db.hasTasksTable ∧
      (l.foldl (fun d m => createIndex m d) db).otherTables = db.otherTables ∧
      (l.foldl (fun d m => createIndex m d) db).categories = db.categories ∧
      (l.foldl (fun d m => createIndex m d) db).tasks = db.tasks := by
  induction l with
  | nil => intro db; simp
  | cons m l ih =>
    intro db
    have h1 := ih (createIndex m db)
    have h2 := createIndex_fields m db
    simp only [List.foldl_cons]
    exact ⟨h1.1.trans h2.1, (h1.2.1).trans h2.2.1, (h1.2.2.1).trans h2.2.2.1,
      (h1.2.2.2.1).trans h2.2.2.2.1, (h1.2.2.2.2).trans h2.2.2.2.2⟩

theorem foldl_createIndex_mem (l : List String) :
    ∀ (db : DB) (n : String), n ∈ db.indexes ∨ n ∈ l →
      n ∈ (l.foldl (fun d m => createIndex m d) db).indexes := by
  induction l with
  | nil => intro db n h; simpa using h
  | cons m l ih =>
    intro db n h
    simp only [List.foldl_cons]
    rcases h with h | h
    · exact ih (createIndex m db) n (Or.inl (createIndex_mem_mono m n db h))
    · rcases List.mem_cons.mp h with rfl | h
      · exact ih (createIndex n db) n (Or.inl (createIndex_mem_self n db))
      · exact ih (createIndex m db) n (Or.inr h)

theorem foldl_createIndex_id (l : List String) :
    ∀ db : DB, (∀ n ∈ l, n ∈ db.indexes) →
      l.foldl (fun d m => createIndex m d) db = db := by
  induction l with
  | nil => intro db _; rfl
  | cons m l ih =>
    intro db h
    simp only [List.foldl_cons]
    rw [createIndex_id m db (h m (by simp))]
    exact ih db (fun n hn => h n (by simp [hn]))

theorem schema_fields (db : DB) :
    (_create_schema db).hasCategoriesTable = true ∧
    (_create_schema db).hasTasksTable = true ∧
    (_create_schema db).otherTables = db.otherTables ∧
    (_create_schema db).categories = db.categories ∧
    (_create_schema db).tasks = db.tasks := by
  unfold _create_schema
  have hf := foldl_createIndex_fields indexNames (createTasksTable (createCategoriesTable db))
  have h1 := createCategoriesTable_fields db
  have h2 := createTasksTable_fields (createCategoriesTable db)
  exact ⟨hf.1.trans (h2.2.1.trans h1.1), hf.2.1.trans h2.1,
    hf.2.2.1.trans (h2.2.2.2.1.trans h1.2.2.2.1),
    hf.2.2.2.1.trans (h2.2.2.2.2.1.trans h1.2.2.2.2.1),
    hf.2.2.2.2.trans (h2.2.2.2.2.2.trans h1.2.2.2.2.2)⟩

theorem schema_mem_indexes (db : DB) :
    ∀ n ∈ indexNames, n ∈ (_create_schema db).indexes := by
  intro n hn
  exact foldl_createIndex_mem indexNames _ n (Or.inr hn)

theorem schema_id (db : DB) (h1 : db.hasCategoriesTable = true)
    (h2 : db.hasTasksTable = true) (h3 : ∀ n ∈ indexNames, n ∈ db.indexes) :
    _create_schema db = db := by
  unfold _create_schema
  rw [createCategoriesTable_id db h1, createTasksTable_id db h2]
  exact foldl_createIndex_id indexNames db h3

theorem hasCatNamed_congr {db1 db2 : DB} (h : db1.categories = db2.categories)
    (m : String) : hasCatNamed db1 m = hasCatNamed db2 m := by
  simp [hasCatNamed, h]

theorem insertCategorySeed_some {now : Int} {n c : String} {s : Int}
    {db db1 : DB} (h : insertCategorySeed now n c s db = some db1) :
    db1.hasCategoriesTable = db.hasCategoriesTable ∧
    db1.hasTasksTable = db.hasTasksTable ∧
    db1.indexes = db.indexes ∧
    db1.otherTables = db.otherTables ∧
    db1.tasks = db.tasks ∧
    (∀ m, hasCatNamed db m = true → hasCatNamed db1 m = true) ∧
    hasCatNamed db1 n = true := by
  unfold insertCategorySeed at h
  by_cases hc : db.hasCategoriesTable = true
  · rw [if_pos hc] at h
    by_cases hn : hasCatNamed db n = true
    · rw [if_pos hn] at h
      injection h with h
      subst h
      exact ⟨rfl, rfl, rfl, rfl, rfl, fun m hm => hm, hn⟩
    · rw [if_neg hn] at h
      injection h with h
      subst h
      refine ⟨rfl, rfl, rfl, rfl, rfl, ?_, ?_⟩
      · intro m hm
        simp only [hasCatNamed, List.any_append] at *
        simp [hm]
      · simp [hasCatNamed, List.any_append, nocaseEq_refl]
  · rw [if_neg hc] at h
    exact absurd h (by simp)

theorem seedCat_skip {now : Int} {n : String} (c : String) (s : Int) {db : DB}
    (h1 : db.hasCategoriesTable = true) (h2 : hasCatNamed db n = true) :
    insertCategorySeed now n c s db = some db := by
  simp [insertCategorySeed, h1, h2]

theorem seedCat_total {now : Int} {n c : String} {s : Int} {db : DB}
    (h1 : db.hasCategoriesTable = true) :
    ∃ d, insertCategorySeed now n c s db = some d := by
  unfold insertCategorySeed
  rw [if_pos h1]
  by_cases hn : hasCatNamed db n = true
  · rw [if_pos hn]; exact ⟨db, rfl⟩
  · rw [if_neg hn]; exact ⟨_, rfl⟩

theorem insertTask_some {now : Int} {title : String} {descr : Option String}
    {due : Option Int} {isC : Int} {compAt : Option Int} {catId : Option Nat}
    {p : Int} {db db1 : DB}
    (h : insertTask now title descr due isC compAt catId p db = some db1) :
    db1.hasCategoriesTable = db.hasCategoriesTable ∧
    db1.hasTasksTable = db.hasTasksTable ∧
    db1.indexes = db.indexes ∧
    db1.otherTables = db.otherTables ∧
    db1.categories = db.categories ∧
    db1.tasks = db.tasks ++
      [⟨freshId db.taskSeq (db.tasks.map (fun r => r.id)), title, descr, due,
        isC, compAt, catId, p, now, now⟩] := by
  unfold insertTask at h
  by_cases h1 : db.hasTasksTable = true
  · rw [if_pos h1] at h
    split at h
    · injection h with h
      subst h
      exact ⟨rfl, rfl, rfl, rfl, rfl, rfl⟩
    · exact absurd h (by simp)
  · rw [if_neg h1] at h
    exact absurd h (by simp)

theorem insertSeedTask_some {now : Int} {t d cn : String} {p : Int}
    {db db1 : DB} (h : insertSeedTask now t d cn p db = some db1) :
    db1.hasCategoriesTable = db.hasCategoriesTable ∧
    db1.hasTasksTable = db.hasTasksTable ∧
    db1.indexes = db.indexes ∧
    db1.otherTables = db.otherTables ∧
    db1.categories = db.categories ∧
    db1.tasks = db.tasks ++
      [⟨freshId db.taskSeq (db.tasks.map (fun r => r.id)), t, some d, none,
        0, none, lookupCategoryId db cn, p, now, now⟩] :=
  insertTask_some h

theorem insertSeedTask_total {now : Int} {t d cn : String} {p : Int} {db : DB}
    (h : db.hasTasksTable = true) :
    ∃ db1, insertSeedTask now t d cn p db = some db1 := by
  unfold insertSeedTask insertTask
  rw [if_pos h]
  have hcond : (((0 : Int) == 0 || (0 : Int) == 1)
      && ((none : Option Int) == none || (0 : Int) == 1)
      && ((none : Option Int).all (fun d => decide (0 ≤ d)))
      && ((lookupCategoryId db cn).all
            (fun c => db.categories.any (fun r => r.id == c)))) = true := by
    cases hl : lookupCategoryId db cn with
    | none => simp
    | some i =>
      obtain ⟨r, hr, hri⟩ : ∃ r, db.categories.find?
          (fun r => nocaseEq r.name cn) = some r ∧ r.id = i := by
        unfold lookupCategoryId at hl
        cases hf : db.categories.find? (fun r => nocaseEq r.name cn) with
        | none => rw [hf] at hl; simp at hl
        | some r => rw [hf] at hl; exact ⟨r, rfl, by simpa using hl⟩
      have hmem := List.mem_of_find?_eq_some hr
      simp only [Option.all_some, Bool.and_eq_true]
      refine ⟨by simp, ?_⟩
      exact List.any_eq_true.mpr ⟨r, hmem, by simp [hri]⟩
  rw [if_pos hcond]
  exact ⟨_, rfl⟩

theorem seed_data_some {now : Int} {db db1 : DB}
    (h : _seed_data now db = some db1) :
    db1.hasCategoriesTable = db.hasCategoriesTable ∧
    db1.hasTasksTable = db.hasTasksTable ∧
    db1.indexes = db.indexes ∧
    db1.otherTables = db.otherTables ∧
    hasCatNamed db1 "Personal" = true ∧ hasCatNamed db1 "Work" = true ∧
    hasCatNamed db1 "Shopping" = true ∧ hasCatNamed db1 "Health" = true ∧
    db1.tasks ≠ [] ∧
    (∀ t ∈ db1.tasks, t ∈ db.tasks ∨
      (t.due_at = none ∧ t.is_completed = 0 ∧ t.completed_at = none)) ∧
    (db.tasks ≠ [] → db1.tasks = db.tasks) := by
  unfold _seed_data at h
  simp only [Option.bind_eq_some] at h
  obtain ⟨d1, h1, d2, h2, d3, h3, d4, h4, h5⟩ := h
  obtain ⟨c1a, c1b, c1c, c1d, c1e, c1f, c1g⟩ := insertCategorySeed_some h1
  obtain ⟨c2a, c2b, c2c, c2d, c2e, c2f, c2g⟩ := insertCategorySeed_some h2
  obtain ⟨c3a, c3b, c3c, c3d, c3e, c3f, c3g⟩ := insertCategorySeed_some h3
  obtain ⟨c4a, c4b, c4c, c4d, c4e, c4f, c4g⟩ := insertCategorySeed_some h4
  have hP4 : hasCatNamed d4 "Personal" = true := c4f _ (c3f _ (c2f _ c1g))
  have hW4 : hasCatNamed d4 "Work" = true := c4f _ (c3f _ c2g)
  have hS4 : hasCatNamed d4 "Shopping" = true := c4f _ c3g
  have hH4 : hasCatNamed d4 "Health" = true := c4g
  have htasks4 : d4.tasks = db.tasks := c4e.trans (c3e.trans (c2e.trans c1e))
  have hflagsC : d4.hasCategoriesTable = db.hasCategoriesTable :=
    c4a.trans (c3a.trans (c2a.trans c1a))
  have hflagsT : d4.hasTasksTable = db.hasTasksTable :=
    c4b.trans (c3b.trans (c2b.trans c1b))
  have hidx : d4.indexes = db.indexes := c4c.trans (c3c.trans (c2c.trans c1c))
  have hot : d4.otherTables = db.otherTables :=
    c4d.trans (c3d.trans (c2d.trans c1d))
  by_cases ht : d4.hasTasksTable = true
  · rw [if_pos ht] at h5
    by_cases hlen : (d4.tasks.length == 0) = true
    · rw [if_pos hlen] at h5
      simp only [Option.bind_eq_some] at h5
      obtain ⟨d5, h6, d6, h7, h8⟩ := h5
      obtain ⟨t1a, t1b, t1c, t1d, t1e, t1f⟩ := insertSeedTask_some h6
      obtain ⟨t2a, t2b, t2c, t2d, t2e, t2f⟩ := insertSeedTask_some h7
      obtain ⟨t3a, t3b, t3c, t3d, t3e, t3f⟩ := insertSeedTask_some h8
      have hcats : db1.categories = d4.categories :=
        t3e.trans (t2e.trans t1e)
      have htasksEmpty : d4.tasks = [] := by
        simpa using List.length_eq_zero.mp (by simpa using hlen)
      have htasks1 : db1.tasks = d6.tasks ++ [_] := t3f
      refine ⟨t3a.trans (t2a.trans (t1a.trans hflagsC)),
        t3b.trans (t2b.trans (t1b.trans hflagsT)),
        t3c.trans (t2c.trans (t1c.trans hidx)),
        t3d.trans (t2d.trans (t1d.trans hot)),
        (hasCatNamed_congr hcats _).trans hP4,
        (hasCatNamed_congr hcats _).trans hW4,
        (hasCatNamed_congr hcats _).trans hS4,
        (hasCatNamed_congr hcats _).trans hH4, ?_, ?_, ?_⟩
      · rw [t3f]; simp
      · intro t htmem
        rw [t3f, t2f, t1f] at htmem
        simp only [List.append_assoc, List.mem_append, List.mem_singleton] at htmem
        rcases htmem with h | h | h | h
        · exact Or.inl (htasks4 ▸ h)
        · subst h; exact Or.inr ⟨rfl, rfl, rfl⟩
        · subst h; exact Or.inr ⟨rfl, rfl, rfl⟩
        · subst h; exact Or.inr ⟨rfl, rfl, rfl⟩
      · intro hne
        exact absurd (htasks4.symm.trans htasksEmpty) hne
    · rw [if_neg hlen] at h5
      injection h5 with h5
      subst h5
      refine ⟨hflagsC, hflagsT, hidx, hot, hP4, hW4, hS4, hH4, ?_, ?_, ?_⟩
      · intro hnil
        exact hlen (by simp [hnil])
      · intro t htmem; exact Or.inl (htasks4 ▸ htmem)
      · intro _; exact htasks4
  · rw [if_neg ht] at h5
    exact absurd h5 (by simp)

theorem runInit_some_sat {now : Int} {db db1 : DB}
    (h : runInit now db = some db1) :
    db1.hasCategoriesTable = true ∧ db1.hasTasksTable = true ∧
    (∀ n ∈ indexNames, n ∈ db1.indexes) ∧
    hasCatNamed db1 "Personal" = true ∧ hasCatNamed db1 "Work" = true ∧
    hasCatNamed db1 "Shopping" = true ∧ hasCatNamed db1 "Health" = true ∧
    db1.tasks ≠ [] := by
  unfold runInit at h
  have hs := seed_data_some h
  have hf := schema_fields db
  refine ⟨hs.1.trans hf.1, hs.2.1.trans hf.2.1, ?_, hs.2.2.2.2.1,
    hs.2.2.2.2.2.1, hs.2.2.2.2.2.2.1, hs.2.2.2.2.2.2.2.1,
    hs.2.2.2.2.2.2.2.2.1⟩
  intro n hn
  rw [hs.2.2.1]
  exact schema_mem_indexes db n hn

theorem seed_data_saturated {now : Int} {db : DB}
    (h1 : db.hasCategoriesTable = true) (h2 : db.hasTasksTable = true)
    (hP : hasCatNamed db "Personal" = true)
    (hW : hasCatNamed db "Work" = true)
    (hS : hasCatNamed db "Shopping" = true)
    (hH : hasCatNamed db "Health" = true)
    (ht : db.tasks ≠ []) : _seed_data now db = some db := by
  unfold _seed_data
  rw [seedCat_skip _ _ h1 hP]
  simp only [Option.some_bind]
  rw [seedCat_skip _ _ h1 hW]
  simp only [Option.some_bind]
  rw [seedCat_skip _ _ h1 hS]
  simp only [Option.some_bind]
  rw [seedCat_skip _ _ h1 hH]
  simp only [Option.some_bind]
  rw [if_pos h2, if_neg]
  intro hlen
  exact ht (List.length_eq_zero.mp (by simpa using hlen))

theorem curDB_execDDL (f : DB → DB) (c : ConnState) :
    curDB (execDDL f c) = f (curDB c) := by
  unfold curDB execDDL
  cases c.txn <;> simp

theorem curDB_commitConn (c : ConnState) : curDB (commitConn c) = curDB c := rfl

theorem pureList_append (a b : List Stmt) :
    ∀ d : DB, pureList (a ++ b) d = (pureList a d).bind (pureList b) := by
  induction a with
  | nil => intro d; simp [pureList]
  | cons s a ih =>
    intro d
    simp only [List.cons_append, pureList]
    cases pureStmt s d with
    | none => simp
    | some m => simp [ih m]

theorem execProg_append (fa : Option Nat) (a b : List Stmt) (e : Exec) :
    execProg fa (a ++ b) e = execProg fa b (execProg fa a e) := by
  simp [execProg, List.foldl_append]

theorem execStmt_failed (fa : Option Nat) (s : Stmt) (e : Exec)
    (h : e.failed = true) : execStmt fa s e = e := by
  simp [execStmt, h]

theorem execProg_failed (fa : Option Nat) (l : List Stmt) :
    ∀ e : Exec, e.failed = true → execProg fa l e = e := by
  induction l with
  | nil => intro e _; rfl
  | cons s l ih =>
    intro e h
    simp only [execProg, List.foldl_cons]
    rw [show (execStmt fa s e) = e from execStmt_failed fa s e h]
    exact ih e h

theorem execProg_none_sound (l : List Stmt) :
    ∀ (e : Exec) (d : DB), e.failed = false →
      pureList l (curDB e.conn) = some d →
      (execProg none l e).failed = false ∧
      curDB (execProg none l e).conn = d ∧
      (execProg none l e).step = e.step + l.length := by
  induction l with
  | nil =>
    intro e d hf hp
    simp only [pureList, Option.some.injEq] at hp
    subst hp
    simpa [execProg] using hf
  | cons s l ih =>
    intro e d hf hp
    simp only [pureList, Option.bind_eq_some] at hp
    obtain ⟨m, hm, hrest⟩ := hp
    simp only [execProg, List.foldl_cons]
    have hstep : ∃ e1, execStmt none s e = e1 ∧ e1.failed = false ∧
        curDB e1.conn = m ∧ e1.step = e.step + 1 := by
      cases s with
      | ddl f =>
        simp only [pureStmt, Option.some.injEq] at hm
        refine ⟨_, rfl, ?_⟩
        simp [execStmt, hf, curDB_execDDL, hm]
      | dml f =>
        simp only [pureStmt] at hm
        have hm2 : f (e.conn.txn.getD e.conn.committed) = some m := hm
        refine ⟨_, rfl, ?_⟩
        simp [execStmt, hf, execDML, curDB, hm2]
      | query =>
        simp only [pureStmt, Option.some.injEq] at hm
        refine ⟨_, rfl, ?_⟩
        simp [execStmt, hf, hm]
      | commitStmt =>
        simp only [pureStmt, Option.some.injEq] at hm
        refine ⟨_, rfl, ?_⟩
        simp [execStmt, hf, curDB_commitConn, hm]
    obtain ⟨e1, he1, hf1, hm1, hs1⟩ := hstep
    rw [show (List.foldl (fun e s => execStmt none s e) (execStmt none s e) l)
        = execProg none l e1 by rw [he1]; rfl]
    have := ih e1 d hf1 (by rw [hm1]; exact hrest)
    refine ⟨this.1, this.2.1, ?_⟩
    rw [this.2.2, hs1]
    simp only [List.length_cons]
    omega

theorem execStmt_far {k : Nat} (s : Stmt) (e : Exec) (h : k ≠ e.step) :
    execStmt (some k) s e = execStmt none s e := by
  cases hf : e.failed <;> simp [execStmt, hf, h]

theorem execStmt_step_le (fa : Option Nat) (s : Stmt) (e : Exec) :
    (execStmt fa s e).step ≤ e.step + 1 := by
  unfold execStmt
  by_cases h1 : e.failed = true
  · rw [if_pos h1]; omega
  · rw [if_neg h1]
    by_cases h2 : fa = some e.step
    · rw [if_pos h2]
    · rw [if_neg h2]
      cases s with
      | ddl f => exact Nat.le_refl _
      | query => exact Nat.le_refl _
      | commitStmt => exact Nat.le_refl _
      | dml f =>
        dsimp only
        cases execDML f e.conn <;> exact Nat.le_refl _

theorem execProg_far (l : List Stmt) :
    ∀ (k : Nat) (e : Exec), e.step + l.length ≤ k →
      execProg (some k) l e = execProg none l e := by
  induction l with
  | nil => intro k e _; rfl
  | cons s l ih =>
    intro k e h
    simp only [List.length_cons] at h
    have hne : k ≠ e.step := by omega
    simp only [execProg, List.foldl_cons]
    rw [show execStmt (some k) s e = execStmt none s e from execStmt_far s e hne]
    have hle := execStmt_step_le none s e
    exact ih k (execStmt none s e) (by omega)

theorem execStmt_cases (fa : Option Nat) (s : Stmt) (e : Exec) :
    (execStmt fa s e).failed = true ∨
    ((execStmt fa s e).step = e.step + 1 ∧ (execStmt fa s e).failed = false) := by
  unfold execStmt
  by_cases h1 : e.failed = true
  · rw [if_pos h1]; exact Or.inl h1
  · rw [if_neg h1]
    by_cases h2 : fa = some e.step
    · rw [if_pos h2]; exact Or.inl rfl
    · rw [if_neg h2]
      have h1x : e.failed = false := by simpa using h1
      cases s with
      | ddl f => exact Or.inr ⟨rfl, h1x⟩
      | query => exact Or.inr ⟨rfl, h1x⟩
      | commitStmt => exact Or.inr ⟨rfl, h1x⟩
      | dml f =>
        dsimp only
        cases hE : execDML f e.conn with
        | some c => simp [hE, h1x]
        | none => simp [hE]

theorem execProg_fault_hits (l : List Stmt) :
    ∀ (k : Nat) (e : Exec), e.failed = false → e.step ≤ k →
      k < e.step + l.length → (execProg (some k) l e).failed = true := by
  induction l with
  | nil =>
    intro k e _ h1 h2
    simp only [List.length_nil] at h2
    omega
  | cons s l ih =>
    intro k e hf h1 h2
    simp only [List.length_cons] at h2
    simp only [execProg, List.foldl_cons]
    by_cases hk : e.step = k
    · have hfail : (execStmt (some k) s e).failed = true := by
        simp [execStmt, hf, hk]
      rw [show List.foldl (fun e s => execStmt (some k) s e)
          (execStmt (some k) s e) l = execProg (some k) l (execStmt (some k) s e)
          from rfl]
      rw [execProg_failed (some k) l _ hfail]
      exact hfail
    · rcases execStmt_cases (some k) s e with hfail | ⟨hst, hnf⟩
      · rw [show List.foldl (fun e s => execStmt (some k) s e)
            (execStmt (some k) s e) l =
            execProg (some k) l (execStmt (some k) s e) from rfl]
        rw [execProg_failed (some k) l _ hfail]
        exact hfail
      · exact ih k (execStmt (some k) s e) hnf (by omega) (by omega)

/-- A database-to-database function that touches neither table content. -/
def rowsPreserving (f : DB → DB) : Prop :=
  ∀ d, (f d).categories = d.categories ∧ (f d).tasks = d.tasks

/-- A statement that can never change committed row content on its own:
DML lands in the pending transaction, queries read, and row-preserving DDL
autocommits only schema objects.  The commit statement is excluded. -/
def stmtRowSafe : Stmt → Prop
  | .ddl f => rowsPreserving f
  | .dml _ => True
  | .query => True
  | .commitStmt => False

theorem execDML_committed {f : DB → Option DB} {c c2 : ConnState}
    (h : execDML f c = some c2) : c2.committed = c.committed := by
  unfold execDML at h
  cases hF : f (curDB c) with
  | none => rw [hF] at h; exact absurd h (by simp)
  | some d => rw [hF] at h; injection h with h; rw [← h]

theorem execStmt_committed_rows (fa : Option Nat) (s : Stmt) (e : Exec)
    (hs : stmtRowSafe s) :
    (execStmt fa s e).conn.committed.categories = e.conn.committed.categories ∧
    (execStmt fa s e).conn.committed.tasks = e.conn.committed.tasks := by
  unfold execStmt
  by_cases h1 : e.failed = true
  · rw [if_pos h1]; exact ⟨rfl, rfl⟩
  · rw [if_neg h1]
    by_cases h2 : fa = some e.step
    · rw [if_pos h2]; exact ⟨rfl, rfl⟩
    · rw [if_neg h2]
      cases s with
      | query => exact ⟨rfl, rfl⟩
      | commitStmt => exact absurd hs (by simp [stmtRowSafe])
      | ddl f =>
        have hp : rowsPreserving f := hs
        unfold execDDL
        cases htxn : e.conn.txn with
        | some d => exact ⟨rfl, rfl⟩
        | none => simpa using (hp e.conn.committed)
      | dml f =>
        dsimp only
        cases hE : execDML f e.conn with
        | some c => simp [hE, execDML_committed hE]
        | none => simp [hE]

theorem execProg_committed_rows :
    ∀ (l : List Stmt), (∀ s ∈ l, stmtRowSafe s) →
      ∀ (fa : Option Nat) (e : Exec),
        (execProg fa l e).conn.committed.categories =
          e.conn.committed.categories ∧
        (execProg fa l e).conn.committed.tasks = e.conn.committed.tasks := by
  intro l
  induction l with
  | nil => intro _ fa e; exact ⟨rfl, rfl⟩
  | cons s l ih =>
    intro hl fa e
    have hs := hl s (by simp)
    have hrest : ∀ x ∈ l, stmtRowSafe x := fun x hx => hl x (by simp [hx])
    simp only [execProg, List.foldl_cons]
    have h1 := execStmt_committed_rows fa s e hs
    have h2 := ih hrest fa (execStmt fa s e)
    exact ⟨h2.1.trans h1.1, h2.2.trans h1.2⟩

theorem post_exec (e : Exec) (hf : e.failed = false) :
    (execProg none postStmts e).failed = false ∧
    (execProg none postStmts e).conn = ⟨curDB e.conn, none⟩ := by
  simp [execProg, postStmts, execStmt, hf, commitConn]

theorem pureList_catSeed (now : Int) (d : DB) :
    pureList (catSeedStmts now) d =
      (insertCategorySeed now "Personal" "#10B981" 0 d).bind (fun x =>
      (insertCategorySeed now "Work" "#374151" 1 x).bind (fun x =>
      (insertCategorySeed now "Shopping" "#9CA3AF" 2 x).bind (fun x =>
      (insertCategorySeed now "Health" "#EF4444" 3 x).bind fun x => some x))) := by
  rfl

theorem pureList_taskSeed (now : Int) (d : DB) :
    pureList (taskSeedStmts now) d =
      (insertSeedTask now "Welcome to Smart To-Do"
          "Tap a task to edit it. Use the + button to add more."
          "Personal" 0 d).bind (fun x =>
      (insertSeedTask now "Plan your week"
          "Add a few work tasks and set due dates." "Work" 1 x).bind (fun x =>
      (insertSeedTask now "Buy groceries" "Milk, eggs, bread, fruit."
          "Shopping" 0 x).bind fun x => some x)) := by
  rfl

set_option maxHeartbeats 1600000 in
theorem session_agrees (now : Int) (db0 db1 : DB)
    (h : runInit now db0 = some db1) :
    (initSession now none db0).failed = false ∧
    (initSession now none db0).conn = ⟨db1, none⟩ := by
  unfold runInit at h
  unfold _seed_data at h
  simp only [Option.bind_eq_some] at h
  obtain ⟨d1, h1, d2, h2, d3, h3, d4, h4, h5⟩ := h
  have hschema : pureList schemaStmts db0 = some (_create_schema db0) := by
    simp [schemaStmts, indexNames, _create_schema, pureList, pureStmt]
  have hpre : pureList (preStmts now) db0 = some d4 := by
    rw [show preStmts now = (schemaStmts ++ catSeedStmts now) ++ [Stmt.query]
      from rfl]
    rw [pureList_append, pureList_append, hschema]
    simp only [Option.some_bind]
    rw [pureList_catSeed]
    rw [h1]
    simp only [Option.some_bind]
    rw [h2]
    simp only [Option.some_bind]
    rw [h3]
    simp only [Option.some_bind]
    rw [h4]
    simp only [Option.some_bind]
    simp [pureList, pureStmt]
  have hsound := execProg_none_sound (preStmts now) ⟨⟨db0, none⟩, 0, false⟩ d4
    rfl (by simpa [curDB] using hpre)
  have hcur : curDB (execProg none (preStmts now)
      ⟨⟨db0, none⟩, 0, false⟩).conn = d4 := hsound.2.1
  have hfail1 : (execProg none (preStmts now)
      ⟨⟨db0, none⟩, 0, false⟩).failed = false := hsound.1
  simp only [initSession]
  set e1 : Exec := execProg none (preStmts now) ⟨⟨db0, none⟩, 0, false⟩ with he1
  rw [hcur]
  by_cases ht : d4.hasTasksTable = true
  · rw [if_pos ht] at h5
    by_cases hlen : (d4.tasks.length == 0) = true
    · rw [if_pos hlen] at h5
      simp only [Option.bind_eq_some] at h5
      obtain ⟨d5, h6, d6, h7, h8⟩ := h5
      have hmid : pureList (taskSeedStmts now) d4 = some db1 := by
        rw [pureList_taskSeed, h6]
        simp only [Option.some_bind]
        rw [h7]
        simp only [Option.some_bind]
        rw [h8]
        simp
      rw [if_pos hlen, execProg_append]
      have hsound2 := execProg_none_sound (taskSeedStmts now) e1 db1 hfail1
        (by rw [hcur]; exact hmid)
      have hpost := post_exec (execProg none (taskSeedStmts now) e1) hsound2.1
      refine ⟨hpost.1, hpost.2.trans ?_⟩
      rw [hsound2.2.1]
    · rw [if_neg hlen] at h5
      have h5x : d4 = db1 := by simpa using h5
      rw [if_neg hlen]
      simp only [List.nil_append]
      have hpost := post_exec e1 hfail1
      refine ⟨hpost.1, hpost.2.trans ?_⟩
      rw [hcur, h5x]
  · rw [if_neg ht] at h5
    exact absurd h5 (by simp)

theorem mainRun_agrees (cwd : String) (now : Int) (db0 db1 : DB)
    (h : runInit now db0 = some db1) :
    mainRun cwd now none db0 =
      ⟨db1, true, some (reportStats db1), some (_write_connection_files cwd)⟩ := by
  have hs := session_agrees now db0 db1 h
  simp only [mainRun, hs.1, hs.2, Bool.false_eq_true, if_false]

theorem rowsPreserving_cct : rowsPreserving createCategoriesTable :=
  fun d => ⟨(createCategoriesTable_fields d).2.2.2.2.1,
    (createCategoriesTable_fields d).2.2.2.2.2⟩

theorem rowsPreserving_ctt : rowsPreserving createTasksTable :=
  fun d => ⟨(createTasksTable_fields d).2.2.2.2.1,
    (createTasksTable_fields d).2.2.2.2.2⟩

theorem rowsPreserving_ci (n : String) : rowsPreserving (createIndex n) :=
  fun d => ⟨(createIndex_fields n d).2.2.2.1, (createIndex_fields n d).2.2.2.2⟩

theorem preStmts_rowSafe (now : Int) : ∀ s ∈ preStmts now, stmtRowSafe s := by
  intro s hs
  simp [preStmts, schemaStmts, catSeedStmts, indexNames] at hs
  rcases hs with rfl | rfl | rfl | rfl | rfl | rfl | rfl | rfl | rfl | rfl |
    rfl | rfl | rfl
  · exact rowsPreserving_cct
  · exact rowsPreserving_ctt
  · exact rowsPreserving_ci _
  · exact rowsPreserving_ci _
  · exact rowsPreserving_ci _
  · exact rowsPreserving_ci _
  · exact rowsPreserving_ci _
  · exact rowsPreserving_ci _
  · trivial
  · trivial
  · trivial
  · trivial
  · trivial

theorem taskSeedStmts_rowSafe (now : Int) :
    ∀ s ∈ taskSeedStmts now, stmtRowSafe s := by
  intro s hs
  simp [taskSeedStmts] at hs
  rcases hs with rfl | rfl | rfl <;> trivial

theorem preStmts_length (now : Int) : (preStmts now).length = 13 := by
  simp [preStmts, schemaStmts, catSeedStmts, indexNames]

theorem taskSeedStmts_length (now : Int) : (taskSeedStmts now).length = 3 := by
  simp [taskSeedStmts]

set_option maxHeartbeats 1600000 in
theorem pureList_pre_total (now : Int) (db0 : DB) :
    ∃ d4, pureList (preStmts now) db0 = some d4 := by
  have hschema : pureList schemaStmts db0 = some (_create_schema db0) := by
    simp [schemaStmts, indexNames, _create_schema, pureList, pureStmt]
  have h0 : (_create_schema db0).hasCategoriesTable = true := (schema_fields db0).1
  obtain ⟨d1, h1⟩ :=
    @seedCat_total now "Personal" "#10B981" 0 (_create_schema db0) h0
  have f1 : d1.hasCategoriesTable = true := (insertCategorySeed_some h1).1.trans h0
  obtain ⟨d2, h2⟩ := @seedCat_total now "Work" "#374151" 1 d1 f1
  have f2 : d2.hasCategoriesTable = true := (insertCategorySeed_some h2).1.trans f1
  obtain ⟨d3, h3⟩ := @seedCat_total now "Shopping" "#9CA3AF" 2 d2 f2
  have f3 : d3.hasCategoriesTable = true := (insertCategorySeed_some h3).1.trans f2
  obtain ⟨d4, h4⟩ := @seedCat_total now "Health" "#EF4444" 3 d3 f3
  refine ⟨d4, ?_⟩
  rw [show preStmts now = (schemaStmts ++ catSeedStmts now) ++ [Stmt.query]
    from rfl]
  rw [pureList_append, pureList_append, hschema]
  simp only [Option.some_bind]
  rw [pureList_catSeed, h1]
  simp only [Option.some_bind]
  rw [h2]
  simp only [Option.some_bind]
  rw [h3]
  simp only [Option.some_bind]
  rw [h4]
  simp only [Option.some_bind]
  simp [pureList, pureStmt]

theorem initSession_fault (now : Int) (db0 : DB) (k : Nat)
    (hk : k < commitIndex now (some k) db0) :
    (initSession now (some k) db0).failed = true ∧
    (initSession now (some k) db0).conn.committed.categories = db0.categories ∧
    (initSession now (some k) db0).conn.committed.tasks = db0.tasks := by
  have hrows1 := execProg_committed_rows (preStmts now) (preStmts_rowSafe now)
    (some k) ⟨⟨db0, none⟩, 0, false⟩
  simp only [initSession]
  simp only [commitIndex] at hk
  set e1 : Exec := execProg (some k) (preStmts now) ⟨⟨db0, none⟩, 0, false⟩
    with he1
  by_cases hk13 : k < 13
  · have hfail : e1.failed = true := by
      rw [he1]
      exact execProg_fault_hits (preStmts now) k ⟨⟨db0, none⟩, 0, false⟩ rfl
        (Nat.zero_le k) (by rw [preStmts_length]; show k < 0 + 13; omega)
    rw [execProg_failed (some k) _ e1 hfail]
    exact ⟨hfail, hrows1.1, hrows1.2⟩
  · by_cases hbr : ((curDB e1.conn).tasks.length == 0) = true
    · rw [if_pos hbr] at hk ⊢
      have hfar : e1 = execProg none (preStmts now) ⟨⟨db0, none⟩, 0, false⟩ := by
        rw [he1]
        exact execProg_far (preStmts now) k _
          (by rw [preStmts_length]; show 0 + 13 ≤ k; omega)
      obtain ⟨d4, hd4⟩ := pureList_pre_total now db0
      have hsound := execProg_none_sound (preStmts now) ⟨⟨db0, none⟩, 0, false⟩
        d4 rfl (by simpa [curDB] using hd4)
      have hfail1 : e1.failed = false := by rw [hfar]; exact hsound.1
      have hstep1 : e1.step = 13 := by
        rw [hfar, hsound.2.2]
        simp [preStmts_length]
      rw [execProg_append]
      have hfail2 : (execProg (some k) (taskSeedStmts now) e1).failed = true :=
        execProg_fault_hits (taskSeedStmts now) k e1 hfail1
          (by rw [hstep1]; omega)
          (by rw [hstep1, taskSeedStmts_length]; omega)
      rw [execProg_failed (some k) postStmts _ hfail2]
      have hrows2 := execProg_committed_rows (taskSeedStmts now)
        (taskSeedStmts_rowSafe now) (some k) e1
      exact ⟨hfail2, hrows2.1.trans hrows1.1, hrows2.2.trans hrows1.2⟩
    · rw [if_neg hbr] at hk
      simp at hk
      exact absurd hk hk13

/-- Claim C1: running the initializer twice in succession on the same
database produces exactly the same category rows and task rows as one run
(no seed row is duplicated on the second run), and every row present before
the second run is left unchanged by it: the second run returns the result
of the first run unchanged, whatever default timestamp value it runs
with. -/
theorem C1_initializer_idempotent :
    ∀ (now now2 : Int) (db db1 : DB),
      runInit now db = some db1 → runInit now2 db1 = some db1 := by
  intro now now2 db db1 h
  obtain ⟨hc, ht, hidx, hP, hW, hS, hH, htasks⟩ := runInit_some_sat h
  unfold runInit
  rw [schema_id db1 hc ht hidx]
  exact seed_data_saturated hc ht hP hW hS hH htasks

/-- Witness for C1 at a concrete input: the fresh-run result is a fixed
point of a second run. -/
theorem C1_initializer_idempotent_witness :
    runInit 1 (freshDB 0) = some (freshDB 0) :=
  C1_initializer_idempotent 0 1 emptyDB (freshDB 0) (runInit_emptyDB 0)

/-- Claim C2 counterexample: the schema accepts a task row with
`is_completed = 1` and `completed_at` NULL, and a subsequent successful run
leaves that row in place, so after a successful run not every task row
satisfies the claimed equivalence (`completed_at` null iff
`is_completed = 0`). -/
theorem C2_completion_iff_counterexample :
    ((insertTask 0 "Done already" none none 1 none none 0
        (_create_schema emptyDB)).bind (fun d => runInit 1 d)).map
      (fun d => d.tasks.any (fun t =>
        decide (¬ (t.completed_at = none ↔ t.is_completed = 0)))) =
      some true := by
  decide

/-- Claim C2 as amended: the schema CHECK constraint enforces only one
direction of the equivalence, namely that a non-null `completed_at` forces
`is_completed = 1`.  A successful run preserves that invariant for every
task row (the seed rows have `completed_at` NULL and `is_completed = 0`),
and after a fresh run on an empty database the full equivalence does hold
for all (seed) rows. -/
theorem C2_completion_flag_amended :
    (∀ (now : Int) (db db1 : DB), runInit now db = some db1 →
      (∀ t, t ∈ db.tasks → t.completed_at ≠ none → t.is_completed = 1) →
      ∀ t, t ∈ db1.tasks → t.completed_at ≠ none → t.is_completed = 1) ∧
    (∀ (now : Int) (db1 : DB), runInit now emptyDB = some db1 →
      ∀ t, t ∈ db1.tasks → (t.completed_at = none ↔ t.is_completed = 0)) := by
  constructor
  · intro now db db1 h hpre t ht hc
    unfold runInit at h
    have hs := seed_data_some h
    have hshape := hs.2.2.2.2.2.2.2.2.2.1 t ht
    rcases hshape with hmem | ⟨_, _, hcomp⟩
    · rw [(schema_fields db).2.2.2.2] at hmem
      exact hpre t hmem hc
    · exact absurd hcomp hc
  · intro now db1 h t ht
    rw [runInit_emptyDB now] at h
    have h2 : freshDB now = db1 := Option.some.inj h
    subst h2
    simp only [freshDB] at ht
    simp only [List.mem_cons, List.not_mem_nil, or_false] at ht
    rcases ht with rfl | rfl | rfl <;> simp

/-- Witness for the amended C2 at a concrete input: the first seed task of a
fresh run satisfies the equivalence. -/
theorem C2_completion_flag_witness :
    ((⟨1, "Welcome to Smart To-Do",
      some "Tap a task to edit it. Use the + button to add more.",
      none, 0, none, some 1, 0, 0, 0⟩ : TaskRow).completed_at = none ↔
     (⟨1, "Welcome to Smart To-Do",
      some "Tap a task to edit it. Use the + button to add more.",
      none, 0, none, some 1, 0, 0, 0⟩ : TaskRow).is_completed = 0) :=
  C2_completion_flag_amended.2 0 (freshDB 0) (runInit_emptyDB 0) _ (by decide)

/-- Claim C5: the three starter tasks are inserted only when the tasks table
has zero rows at seeding time; with at least one existing task row, a run
inserts no task row at all.  Concretely: run once on an empty target, insert
a fourth task manually, run again; the task count is then 4 and the category
count stays 4. -/
theorem C5_task_seed_guard :
    (∀ (now : Int) (db db1 : DB), db.tasks ≠ [] →
      _seed_data now db = some db1 → db1.tasks = db.tasks) ∧
    (((runInit 0 emptyDB).bind
        (insertTask 5 "Fourth task" none none 0 none none 0)).bind
        (fun d => runInit 7 d)).map
      (fun d => (d.categories.length, d.tasks.length)) = some (4, 4) := by
  constructor
  · intro now db db1 hne h
    exact (seed_data_some h).2.2.2.2.2.2.2.2.2.2 hne
  · decide

/-- Witness for C5 at a concrete input: a database that already holds task
rows keeps exactly those task rows across seeding. -/
theorem C5_task_seed_guard_witness :
    (freshDB 0).tasks = (freshDB 0).tasks :=
  C5_task_seed_guard.1 3 (freshDB 0) (freshDB 0) (by decide) (by decide)

/-- Claim C6: the schema rejects any task insert with a negative due
timestamp, and after a successful run every task row has `due_at` either
NULL or non-negative (provided the rows already present satisfied that
schema constraint — the starter tasks are inserted with `due_at` NULL). -/
theorem C6_due_at_invariant :
    (∀ (now : Int) (title : String) (descr : Option String) (d isC : Int)
      (compAt : Option Int) (catId : Option Nat) (p : Int) (db : DB),
      d < 0 →
      insertTask now title descr (some d) isC compAt catId p db = none) ∧
    (∀ (now : Int) (db db1 : DB), runInit now db = some db1 →
      (∀ t, t ∈ db.tasks → ∀ d, t.due_at = some d → 0 ≤ d) →
      ∀ t, t ∈ db1.tasks → ∀ d, t.due_at = some d → 0 ≤ d) := by
  constructor
  · intro now title descr d isC compAt catId p db hd
    unfold insertTask
    have hdec : ((some d).all (fun x => decide (0 ≤ x))) = false :=
      decide_eq_false (by omega)
    by_cases hT : db.hasTasksTable = true
    · rw [if_pos hT, if_neg (by simp [hdec])]
    · rw [if_neg hT]
  · intro now db db1 h hpre t ht d hd
    unfold runInit at h
    have hs := seed_data_some h
    have hshape := hs.2.2.2.2.2.2.2.2.2.1 t ht
    rcases hshape with hmem | ⟨hdue, _, _⟩
    · rw [(schema_fields db).2.2.2.2] at hmem
      exact hpre t hmem d hd
    · rw [hdue] at hd
      exact absurd hd (by simp)

/-- Witness for C6 at a concrete input: inserting a task with due timestamp
-1 into the fresh schema fails. -/
theorem C6_due_at_invariant_witness :
    insertTask 0 "x" none (some (-1)) 0 none none 0 (_create_schema emptyDB) =
      none :=
  C6_due_at_invariant.1 0 "x" none (-1) 0 none none 0 (_create_schema emptyDB)
    (by decide)

/-- A database holding one category whose name differs from the seed name
Personal only in letter case, with an empty tasks table. -/
def dbLower : DB :=
  { hasCategoriesTable := true, hasTasksTable := true, indexes := [],
    otherTables := 0, categories := [⟨7, "personal", none, 0, 0, 0⟩],
    tasks := [], catSeq := 7, taskSeq := 0 }

/-- Claim C10: seed-category deduplication and the starter-task category
subselect match names case-insensitively.  Generally, a seed insert is
skipped whenever a category with the same name under NOCASE exists; and on a
database holding only the category `personal` (id 7), seeding adds no row
named Personal, and the welcome starter task resolves its subselect to id 7
rather than NULL. -/
theorem C10_nocase_dedup_and_lookup :
    (∀ (now : Int) (n c : String) (s : Int) (db : DB),
      db.hasCategoriesTable = true → hasCatNamed db n = true →
      insertCategorySeed now n c s db = some db) ∧
    ((_seed_data 0 dbLower).map (fun d =>
        (d.categories.map (fun r => (r.id, r.name)),
         d.tasks.map (fun t => t.category_id))) =
      some ([(7, "personal"), (8, "Work"), (9, "Shopping"), (10, "Health")],
        [some 7, some 8, some 9])) := by
  constructor
  · intro now n c s db h1 h2
    exact seedCat_skip c s h1 h2
  · decide

/-- Witness for C10 at a concrete input: inserting the seed category
Personal into `dbLower` is skipped and leaves the database unchanged. -/
theorem C10_nocase_witness :
    insertCategorySeed 3 "Personal" "#10B981" 0 dbLower = some dbLower :=
  C10_nocase_dedup_and_lookup.1 3 "Personal" "#10B981" 0 dbLower (by decide)
    (by decide)

/-- Claim C3 counterexample: inject a fault at statement index 8 (the first
category seed insert, i.e. a seeding step) of a run on an empty target.  The
run fails, yet the database is no longer empty: both tables (created by the
earlier autocommitted DDL statements) persist, so it is not the case that no
write of the failed run persists. -/
theorem C3_atomicity_counterexample :
    (mainRun "/workdir" 0 (some 8) emptyDB).ok = false ∧
    (mainRun "/workdir" 0 (some 8) emptyDB).db ≠ emptyDB ∧
    (mainRun "/workdir" 0 (some 8) emptyDB).db.hasCategoriesTable = true ∧
    (mainRun "/workdir" 0 (some 8) emptyDB).db.hasTasksTable = true := by
  decide

/-- Claim C3 as amended: the row-level writes of one run are all-or-nothing.
If a fault hits any statement before the `conn.commit()` statement, the run
reports failure and the persisted database keeps exactly the category rows
and task rows it had before the run (the open transaction holding every
seed insert is rolled back when the connection closes).  Schema-creation
DDL statements, by contrast, autocommit individually and are not covered by
this guarantee (see the counterexample). -/
theorem C3_seed_rows_atomic :
    ∀ (cwd : String) (now : Int) (db0 : DB) (k : Nat),
      k < commitIndex now (some k) db0 →
      (mainRun cwd now (some k) db0).ok = false ∧
      (mainRun cwd now (some k) db0).db.categories = db0.categories ∧
      (mainRun cwd now (some k) db0).db.tasks = db0.tasks := by
  intro cwd now db0 k hk
  have hf := initSession_fault now db0 k hk
  have hmain : mainRun cwd now (some k) db0 =
      ⟨(initSession now (some k) db0).conn.committed, false, none, none⟩ := by
    simp only [mainRun]
    rw [if_pos hf.1]
  rw [hmain]
  exact ⟨rfl, hf.2.1, hf.2.2⟩

/-- Witness for the amended C3 at a concrete input: a fault at statement 5
(an index-creation step) of a fresh run leaves no rows behind. -/
theorem C3_seed_rows_atomic_witness :
    (mainRun "/workdir" 3 (some 5) emptyDB).ok = false ∧
    (mainRun "/workdir" 3 (some 5) emptyDB).db.categories =
      emptyDB.categories ∧
    (mainRun "/workdir" 3 (some 5) emptyDB).db.tasks = emptyDB.tasks :=
  C3_seed_rows_atomic "/workdir" 3 emptyDB 5 (by decide)

/-- Claim C4: a fresh run against an empty target reports exactly 2
user-defined tables, 4 categories and 3 tasks, and the categories table then
contains exactly the names Personal, Work, Shopping, Health with sort orders
0, 1, 2, 3, in that order. -/
theorem C4_fresh_run_report :
    ∀ (cwd : String) (now : Int),
      (mainRun cwd now none emptyDB).stats = some (2, 4, 3) ∧
      (mainRun cwd now none emptyDB).db.categories.map
          (fun r => (r.name, r.sort_order)) =
        [("Personal", 0), ("Work", 1), ("Shopping", 2), ("Health", 3)] := by
  intro cwd now
  rw [mainRun_agrees cwd now emptyDB (freshDB now) (runInit_emptyDB now)]
  exact ⟨rfl, rfl⟩

/-- Claim C7: under the created schema, deleting a referenced category sets
the referencing tasks
category reference to NULL and deletes no task
(`ON DELETE SET NULL`), and updating a category id rewrites the referencing
tasks to the new id (`ON UPDATE CASCADE`). -/
theorem C7_foreign_key_actions :
    ∀ (db : DB) (cid : Nat),
      ((deleteCategory cid db).tasks.length = db.tasks.length) ∧
      (∀ r, r ∈ (deleteCategory cid db).categories → r.id ≠ cid) ∧
      (∀ t, t ∈ db.tasks → t.category_id = some cid →
        { t with category_id := none } ∈ (deleteCategory cid db).tasks) ∧
      (∀ t, t ∈ db.tasks → t.category_id ≠ some cid →
        t ∈ (deleteCategory cid db).tasks) ∧
      (∀ (oldId newId : Nat) (db1 : DB),
        (∃ r, r ∈ db.categories ∧ r.id = oldId) →
        updateCategoryId oldId newId db = some db1 →
        ∀ t, t ∈ db.tasks → t.category_id = some oldId →
          { t with category_id := some newId } ∈ db1.tasks) := by
  intro db cid
  refine ⟨?_, ?_, ?_, ?_, ?_⟩
  · simp [deleteCategory]
  · intro r hr
    simp only [deleteCategory, List.mem_filter] at hr
    simpa using hr.2
  · intro t ht hcid
    simp only [deleteCategory]
    refine List.mem_map.mpr ⟨t, ht, ?_⟩
    rw [if_pos hcid]
  · intro t ht hcid
    simp only [deleteCategory]
    refine List.mem_map.mpr ⟨t, ht, ?_⟩
    rw [if_neg hcid]
  · intro oldId newId db1 hex hupd t ht hcid
    obtain ⟨r, hr, hrid⟩ := hex
    unfold updateCategoryId at hupd
    split at hupd
    · exfalso
      have hall := List.all_eq_true.mp (by assumption) r hr
      simp at hall
      exact hall hrid
    · split at hupd
      · exact absurd hupd (by simp)
      · have h3 := Option.some.inj hupd
        rw [← h3]
        refine List.mem_map.mpr ⟨t, ht, ?_⟩
        rw [if_pos hcid]

/-- Witness for C7 at a concrete input: deleting category 1 clears the
reference of its task, and renumbering category 1 to 2 cascades into the
task. -/
theorem C7_foreign_key_actions_witness :
    ({ (⟨1, "t", none, none, 0, none, some 1, 0, 0, 0⟩ : TaskRow) with
        category_id := none } ∈
      (deleteCategory 1
        ⟨true, true, [], 0, [⟨1, "A", none, 0, 0, 0⟩],
          [⟨1, "t", none, none, 0, none, some 1, 0, 0, 0⟩], 1, 1⟩).tasks) ∧
    ({ (⟨1, "t", none, none, 0, none, some 1, 0, 0, 0⟩ : TaskRow) with
        category_id := some 2 } ∈
      (⟨true, true, [], 0, [⟨2, "A", none, 0, 0, 0⟩],
        [⟨1, "t", none, none, 0, none, some 2, 0, 0, 0⟩], 1, 1⟩ : DB).tasks) :=
  ⟨(C7_foreign_key_actions
      ⟨true, true, [], 0, [⟨1, "A", none, 0, 0, 0⟩],
        [⟨1, "t", none, none, 0, none, some 1, 0, 0, 0⟩], 1, 1⟩ 1).2.2.1
      _ (by decide) rfl,
   (C7_foreign_key_actions
      ⟨true, true, [], 0, [⟨1, "A", none, 0, 0, 0⟩],
        [⟨1, "t", none, none, 0, none, some 1, 0, 0, 0⟩], 1, 1⟩ 1).2.2.2.2
      1 2 _ ⟨⟨1, "A", none, 0, 0, 0⟩, by decide, rfl⟩ (by decide) _
      (by decide) rfl⟩

/-- Claim C8: on every successful run the two descriptor files are written,
unconditionally of the prior database state or fault plan; the text
descriptor consists of exactly four newline-terminated lines (its newline
count is 4, given a working directory containing no newline) and contains
the URI-style connection string `sqlite:///<cwd>/myapp.db` verbatim; the
environment descriptor, placed in the `db_visualizer` subdirectory, is one
line exporting the absolute database path under the fixed variable name. -/
theorem C8_descriptor_files :
    ∀ (cwd : String) (now : Int) (failAt : Option Nat) (db0 : DB),
      cwd.data.count '\n' = 0 →
      ((mainRun cwd now failAt db0).ok = true →
        (mainRun cwd now failAt db0).files =
          some [("db_connection.txt", dbConnectionTxt cwd),
                ("db_visualizer/sqlite.env", sqliteEnvTxt cwd)]) ∧
      (dbConnectionTxt cwd).data.count '\n' = 4 ∧
      (∃ pre post, dbConnectionTxt cwd =
        pre ++ connection_string cwd ++ post) ∧
      (sqliteEnvTxt cwd).data.count '\n' = 1 ∧
      (∃ envline, sqliteEnvTxt cwd = envline ++ "\n" ∧
        envline.data.count '\n' = 0 ∧
        envline = "export SQLITE_DB=\x22" ++ (cwd ++ "/" ++ DB_NAME) ++ "\x22") := by
  intro cwd now failAt db0 hcwd
  refine ⟨?_, ?_, ?_, ?_, ?_⟩
  · intro hok
    by_cases he : (initSession now failAt db0).failed = true
    · exfalso
      simp [mainRun, he] at hok
    · simp [mainRun, he, _write_connection_files]
  · simp only [dbConnectionTxt, connection_string, DB_NAME,
      String.data_append, List.count_append, hcwd]
    decide
  · refine ⟨"# SQLite connection methods:\n" ++
      ("# Python: sqlite3.connect(\x27" ++ DB_NAME ++ "\x27)\n") ++
      "# Connection string: ",
      "\n" ++ ("# File path: " ++ cwd ++ "/" ++ DB_NAME ++ "\n"), ?_⟩
    simp only [dbConnectionTxt, String.append_assoc]
  · simp only [sqliteEnvTxt, DB_NAME, String.data_append, List.count_append,
      hcwd]
    decide
  · refine ⟨"export SQLITE_DB=\x22" ++ (cwd ++ "/" ++ DB_NAME) ++ "\x22",
      ?_, ?_, rfl⟩
    · show "export SQLITE_DB=\x22" ++ (cwd ++ "/" ++ DB_NAME) ++ "\x22\n" =
        "export SQLITE_DB=\x22" ++ (cwd ++ "/" ++ DB_NAME) ++ "\x22" ++ "\n"
      simp only [String.append_assoc]
      rfl
    · simp only [DB_NAME, String.data_append, List.count_append, hcwd]
      decide

/-- Witness for C8 at a concrete input: a successful fresh run writes both
descriptor files. -/
theorem C8_descriptor_files_witness :
    (mainRun "/workdir" 0 none emptyDB).files =
      some [("db_connection.txt", dbConnectionTxt "/workdir"),
            ("db_visualizer/sqlite.env", sqliteEnvTxt "/workdir")] :=
  (C8_descriptor_files "/workdir" 0 none emptyDB (by decide)).1 (by decide)

/-- Claim C9: whenever the connection is opened, it is closed on every exit
path of `main` (success or failure), the descriptor files are written only
after the handle has been closed, and no run ends with the handle open. -/
theorem C9_handle_lifecycle :
    ∀ (now : Int) (connectFails : Bool) (failAt : Option Nat) (db0 : DB),
      (Ev.connect ∈ mainEvents now connectFails failAt db0 →
        Ev.close ∈ mainEvents now connectFails failAt db0) ∧
      (Ev.writeFiles ∈ mainEvents now connectFails failAt db0 →
        (mainEvents now connectFails failAt db0).indexOf Ev.close <
          (mainEvents now connectFails failAt db0).indexOf Ev.writeFiles) ∧
      handleOpenAfter (mainEvents now connectFails failAt db0) = false := by
  intro now cf fa db0
  unfold mainEvents
  by_cases hc : cf = true
  · rw [if_pos hc]
    exact ⟨fun h => absurd h (by decide), fun h => absurd h (by decide),
      by decide⟩
  · rw [if_neg hc]
    by_cases hf : (initSession now fa db0).failed = true
    · rw [if_pos hf]
      exact ⟨fun _ => by decide, fun h => absurd h (by decide), by decide⟩
    · rw [if_neg hf]
      exact ⟨fun _ => by decide, fun _ => by decide, by decide⟩

/-- Witness for C9 at a concrete input: a successful fresh run closes the
handle, writes the files after the close, and ends with the handle
closed. -/
theorem C9_handle_lifecycle_witness :
    Ev.close ∈ mainEvents 0 false none emptyDB ∧
    (mainEvents 0 false none emptyDB).indexOf Ev.close <
      (mainEvents 0 false none emptyDB).indexOf Ev.writeFiles ∧
    handleOpenAfter (mainEvents 0 false none emptyDB) = false :=
  ⟨(C9_handle_lifecycle 0 false none emptyDB).1 (by decide),
   (C9_handle_lifecycle 0 false none emptyDB).2.1 (by decide),
   (C9_handle_lifecycle 0 false none emptyDB).2.2⟩
